import Mathlib

/-!
Verification development for the branch classification and safe-deletion
engine of the `lonely-git-cleaner` repository.

The Python modules are shallowly embedded as Lean functions.  The version
control backend (GitPython) is abstracted as a record of oracles (`GitState`,
`CliEnv`): each backend primitive the code calls (`tracking_branch`, `fetch`,
`merge_base`, `is_ancestor`, `diff`, `delete_head`, ...) becomes a field, and
a fallible primitive returns `Except` or an error `Option`, mirroring exactly
which exceptions the Python code catches and where.
-/

namespace Arborist

abbrev BranchName := String
abbrev RemoteName := String
abbrev CommitId := Nat
abbrev GitErrMsg := String

/-- `BranchStatus` enum from `src/arborist/git/common.py`. -/
inductive BranchStatus
  | MERGED
  | UNMERGED
  | GONE
  | UNKNOWN
deriving DecidableEq, Repr

/-- A local branch head: a name together with its tip commit
(`git.refs.Head` restricted to the attributes the embedded code reads). -/
structure Branch where
  name : BranchName
  commit : CommitId
deriving DecidableEq, Repr

/-- Outcome of a failing `repo.delete_head` call: `text` models `str(err)`
and `stderrHead` models `err.stderr.splitlines()[0]`, the two pieces of the
exception that `_perform_branch_deletion` inspects. -/
structure GitCmdFailure where
  text : String
  stderrHead : String
deriving DecidableEq, Repr

/-- Mutating backend actions that the deletion code can perform.  Traces of
these actions record which repository mutations actually happen. -/
inductive GitAction
  | deleteHead (branch : BranchName) (force : Bool)
  | checkoutBranch (branch : BranchName)
  | removeWorktree (path : String) (force : Bool)
deriving DecidableEq, Repr

/-- Repository state plus backend oracles.  `heads` is `repo.heads`,
`currentBranch` is `repo.active_branch.name`, `remotes` is `repo.remotes`.
`trackingResult b` is the outcome of `heads[b].tracking_branch()` (the
`Option` is the tracking reference, the `Except` layer the exceptions the
call may raise); `fetchOk r n` tells whether `remote(r).fetch(refspec=n)`
succeeds (`false` = it raises `GitCommandError`); `mergeBase`, `isAncestor`
and `diffLen` model `repo.merge_base`, `repo.is_ancestor` and
`commit.diff` (length of the returned diff list); `deleteHeadError b f` is
the failure of `repo.delete_head(b, force=f)` if any; `worktrees` is the
`(path, checked-out branch)` list reported by `git worktree list`. -/
structure GitState where
  heads : List Branch
  currentBranch : BranchName
  remotes : List RemoteName
  trackingResult : BranchName → Except GitErrMsg (Option BranchName)
  fetchOk : RemoteName → BranchName → Bool
  mergeBase : CommitId → CommitId → Except GitErrMsg (List CommitId)
  isAncestor : CommitId → CommitId → Except GitErrMsg Bool
  diffLen : CommitId → CommitId → Except GitErrMsg Nat
  deleteHeadError : BranchName → Bool → Option GitCmdFailure
  worktrees : List (String × Option BranchName)

/-! ### String helpers (substring containment, used by the embedded code) -/

/-- `charsHasPre p s` is true when `p` is an initial segment of `s`. -/
def charsHasPre : List Char → List Char → Bool
  | [], _ => true
  | _ :: _, [] => false
  | c :: ps, d :: ss => c == d && charsHasPre ps ss

/-- `charsHasSub p s` is true when `p` occurs contiguously inside `s`
(Python's `p in s` on strings). -/
def charsHasSub (p s : List Char) : Bool :=
  charsHasPre p s ||
    match s with
    | [] => false
    | _ :: ss => charsHasSub p ss

/-- Python's substring test `needle in hay`. -/
def strContainsSub (needle hay : String) : Bool :=
  charsHasSub needle.data hay.data

/-- Python's `s == ""` / truthiness test on a string. -/
def strIsEmpty (s : String) : Bool :=
  s.data.isEmpty

/-- Python's single-character containment test `c in s`. -/
def strHasChar (s : String) (c : Char) : Bool :=
  s.data.any (fun d => d == c)

/-- Python's `s.startswith(pre)`. -/
def strStartsWith (s pre : String) : Bool :=
  charsHasPre pre.data s.data

/-- Python's `s.endswith(suf)`. -/
def strEndsWith (s suf : String) : Bool :=
  charsHasPre suf.data.reverse s.data.reverse

/-! ### Branch name validation (`common.validate_branch_name`)

The Python function raises `GitError` at the first failing check; as a
boolean it accepts a name exactly when every check passes. -/

/-- The `invalid_chars` list of `validate_branch_name`. -/
def invalidNameChars : List Char := [' ', '~', '^', ':', '?', '*', '[', '\\']

/-- `common.validate_branch_name` as a predicate: true iff the Python
function returns without raising `GitError`. -/
def branchNameOk (name : String) : Bool :=
  !strIsEmpty name &&
  !(strStartsWith name "-" || strEndsWith name "-" ||
    strStartsWith name "/" || strEndsWith name "/") &&
  !strContainsSub "//" name &&
  !invalidNameChars.any (fun c => strHasChar name c) &&
  !name.data.any (fun c => c.toNat < 32 || c.toNat == 127) &&
  !(strStartsWith name "." || strEndsWith name ".") &&
  !strContainsSub "@\x7b" name

/-! ### Branch status classification (`branch_status.BranchStatusManager`) -/

/-- `BranchStatusManager._get_tracking_branch`: `branch.tracking_branch()`
with `GitCommandError`/`AttributeError` caught and turned into `None`. -/
def get_tracking_branch (st : GitState) (branch : BranchName) : Option BranchName :=
  match st.trackingResult branch with
  | .error _ => none
  | .ok t => t

/-- `BranchStatusManager._try_fetch_remote_branch`: `remote.fetch(refspec=b)`
returning `True` on success, `False` when it raises `GitCommandError`. -/
def try_fetch_remote_branch (st : GitState) (remote : RemoteName)
    (branch : BranchName) : Bool :=
  st.fetchOk remote branch

/-- `BranchStatusManager._is_branch_gone`: a branch is gone when it has a
tracking reference and fetching that reference fails on every remote. -/
def is_branch_gone (st : GitState) (branch : BranchName) : Bool :=
  match get_tracking_branch st branch with
  | none => false
  | some tr => !st.remotes.any (fun r => try_fetch_remote_branch st r tr)

/-- `common.get_branch`: look a branch up by name, `GitError` if absent. -/
def getBranch (st : GitState) (name : BranchName) : Except GitErrMsg Branch :=
  match st.heads.find? (fun b => b.name == name) with
  | some b => .ok b
  | none => .error ("Branch " ++ name ++ " does not exist")

/-- `BranchStatusManager._check_branch_merged`: merged iff the merge base
list is nonempty, the branch tip is an ancestor of the target tip, and the
first merge base equals the branch tip; any `GitCommandError` raised by
`merge_base` or `is_ancestor` is caught and yields `False`. -/
def check_branch_merged (st : GitState) (branch target : Branch) : Bool :=
  match st.mergeBase branch.commit target.commit with
  | .error _ => false
  | .ok [] => false
  | .ok (m :: _) =>
    match st.isAncestor branch.commit target.commit with
    | .error _ => false
    | .ok anc => anc && m == branch.commit

/-- `BranchStatusManager._get_branch_status`: gone check first, then the
merged check against the target branch; a `GitError`/`GitCommandError`
escaping the body (in particular `get_branch` failing on the target)
is caught and reported as `UNKNOWN`. -/
def _get_branch_status (st : GitState) (branch : Branch)
    (target : BranchName) : BranchStatus :=
  if is_branch_gone st branch.name then .GONE
  else
    match getBranch st target with
    | .error _ => .UNKNOWN
    | .ok t => if check_branch_merged st branch t then .MERGED else .UNMERGED

/-- `BranchStatusManager.get_branch_status` (classify-all): validates the
target name and its existence (re-raising as a wrapped `GitError`), then maps
`_get_branch_status` over every local head. -/
def get_branch_status (st : GitState) (target : BranchName) :
    Except GitErrMsg (List (BranchName × BranchStatus)) :=
  if !branchNameOk target then
    .error ("Failed to get branch status: invalid branch name " ++ target)
  else if !st.heads.any (fun b => b.name == target) then
    .error ("Failed to get branch status: branch " ++ target ++ " does not exist")
  else
    .ok (st.heads.map (fun b => (b.name, _get_branch_status st b target)))

/-! ### Protection matcher (`branch_cleanup.BranchCleanup._is_protected_by_pattern`) -/

/-- Glob matching over character lists as performed by Python's
`fnmatch.fnmatch` for the patterns this code base uses: `*` matches any
(possibly empty) run of characters, `?` matches exactly one character, and
every other character matches itself.  (`[...]` character classes are part
of `fnmatch` but are exercised by no pattern in this development.)  The
`fuel` argument only drives structural termination: every recursive call
shrinks the combined length of pattern and subject, so the fuel supplied by
`globMatchChars` below is always sufficient and the `fuel = 0` branch is
unreachable. -/
def globMatchFuel : Nat → List Char → List Char → Bool
  | 0, _, _ => false
  | _ + 1, [], [] => true
  | _ + 1, [], _ :: _ => false
  | n + 1, '*' :: ps, [] => globMatchFuel n ps []
  | n + 1, '*' :: ps, c :: cs =>
    globMatchFuel n ps (c :: cs) || globMatchFuel n ('*' :: ps) cs
  | n + 1, '?' :: ps, _ :: cs => globMatchFuel n ps cs
  | _ + 1, _ :: _, [] => false
  | n + 1, c :: ps, d :: cs => c == d && globMatchFuel n ps cs

/-- Glob matching with enough fuel for any input. -/
def globMatchChars (p s : List Char) : Bool :=
  globMatchFuel (p.length + s.length + 1) p s

/-- `fnmatch.fnmatch(name, pat)` (POSIX case-sensitive behaviour). -/
def fnmatch (name pat : String) : Bool :=
  globMatchChars pat.data name.data

/-- `BranchCleanup._is_protected_by_pattern`: empty pattern list protects
nothing; an exact match against any pattern protects; otherwise each
pattern containing the character `*` is glob-matched, and every other
pattern is matched as a stem (`branch == pattern` or `branch` starts with
`pattern + "-"` or `pattern + "/"`). -/
def is_protected_by_pattern (branch : BranchName) (patterns : List String) : Bool :=
  if patterns.isEmpty then false
  else if patterns.contains branch then true
  else patterns.any (fun pattern =>
    if strHasChar pattern '*' then fnmatch branch pattern
    else branch == pattern || strStartsWith branch (pattern ++ "-") ||
      strStartsWith branch (pattern ++ "/"))

/-- The protection matcher as the specification describes it: glob matching
for any pattern containing either wildcard character `*` or `?`, stem
matching only for patterns with no wildcard at all.  Used solely to compare
the code against the specified behaviour. -/
def is_protected_by_pattern_per_spec (branch : BranchName)
    (patterns : List String) : Bool :=
  if patterns.isEmpty then false
  else if patterns.contains branch then true
  else patterns.any (fun pattern =>
    if strHasChar pattern '*' || strHasChar pattern '?' then fnmatch branch pattern
    else branch == pattern || strStartsWith branch (pattern ++ "-") ||
      strStartsWith branch (pattern ++ "/"))

/-! ### Deletion planner (`branch_cleanup.BranchCleanup._get_branches_to_delete`)

The loop body of `_get_branches_to_delete` decides each `(branch, state)`
entry of the status map independently: `plan_keeps` is that per-entry
decision chain, and `get_branches_to_delete` folds it over the map in order.
`tracking b` stands for `repo.heads[b].tracking_branch()`. -/

/-- Per-branch decision of `_get_branches_to_delete`: skip the current
branch; skip protected branches (when a pattern list was given); skip
branches with live remote tracking unless forcing or `GONE`; keep `MERGED`
and `GONE` branches; keep `UNMERGED` branches only when forcing. -/
def plan_keeps (current : BranchName) (tracking : BranchName → Option BranchName)
    (force : Bool) (protect : List String)
    (branch : BranchName) (state : BranchStatus) : Bool :=
  if branch == current then false
  else if !protect.isEmpty && is_protected_by_pattern branch protect then false
  else if !force && !(state == BranchStatus.GONE) && (tracking branch).isSome then false
  else if state == BranchStatus.MERGED || state == BranchStatus.GONE then true
  else if state == BranchStatus.UNMERGED && force then true
  else false

/-- `BranchCleanup._get_branches_to_delete`, applied to an already computed
status map: collects, in order, the branches whose entry passes
`plan_keeps`. -/
def get_branches_to_delete (current : BranchName)
    (tracking : BranchName → Option BranchName) (force : Bool)
    (protect : List String) :
    List (BranchName × BranchStatus) → List BranchName
  | [] => []
  | (branch, state) :: rest =>
    let tail := get_branches_to_delete current tracking force protect rest
    if plan_keeps current tracking force protect branch state then branch :: tail
    else tail

/-! ### Safe deletion executor (`branch_cleanup.BranchCleanup`)

Each function returns the repository state after the call, the values the
Python function returns, and the trace of successful mutating backend
actions it performed. -/

/-- Effect of a successful `repo.delete_head(branch)` on the state. -/
def apply_delete (st : GitState) (branch : BranchName) : GitState :=
  { st with heads := st.heads.filter (fun h => !(h.name == branch)) }

/-- Result of `_perform_branch_deletion`. -/
structure PerformResult where
  state : GitState
  success : Bool
  message : String
  trace : List GitAction

/-- `BranchCleanup._perform_branch_deletion`: attempt `repo.delete_head`;
on `GitCommandError`, translate the two known diagnostic substrings into
fixed messages and otherwise report the first stderr line. -/
def perform_branch_deletion (st : GitState) (branch : BranchName)
    (force : Bool) : PerformResult :=
  match st.deleteHeadError branch force with
  | none =>
    { state := apply_delete st branch, success := true, message := "",
      trace := [GitAction.deleteHead branch force] }
  | some err =>
    if strContainsSub "is not fully merged" err.text then
      { state := st, success := false,
        message := "Branch has unmerged changes. Use --force to delete anyway",
        trace := [] }
    else if strContainsSub "not yet merged to" err.text then
      { state := st, success := false,
        message := "Branch has a remote tracking branch. Use --force to delete anyway",
        trace := [] }
    else
      { state := st, success := false,
        message := "Failed to delete branch: " ++ err.stderrHead, trace := [] }

/-- `BranchCleanup._validate_branch_merged`: recompute the full status map
against the default target `main` (re-raising its `GitError` if it fails)
and raise when the branch is reported `UNMERGED`. -/
def validate_branch_merged (st : GitState) (branch : BranchName) :
    Except GitErrMsg Unit :=
  match get_branch_status st "main" with
  | .error e => .error e
  | .ok m =>
    if m.lookup branch == some BranchStatus.UNMERGED then
      .error ("Branch " ++ branch ++ " is not fully merged")
    else .ok ()

/-- Result of `_delete_single_branch`. -/
structure SingleResult where
  state : GitState
  success : Bool
  error : Option String
  trace : List GitAction

/-- The guarded merged-state validation step of `_delete_single_branch`:
when not forcing and the passed status map does not already say
`MERGED`/`GONE`, run `_validate_branch_merged`; otherwise succeed. -/
def merged_precheck (st : GitState) (branch : BranchName) (force : Bool)
    (status : List (BranchName × BranchStatus)) : Except GitErrMsg Unit :=
  if !force && !(status.lookup branch == some BranchStatus.MERGED
      || status.lookup branch == some BranchStatus.GONE) then
    validate_branch_merged st branch
  else Except.ok ()

/-- The deletion step of `_delete_single_branch`: run
`_perform_branch_deletion` with the computed force flag and shape the
returned pair. -/
def finish_branch_deletion (st : GitState) (branch : BranchName)
    (shouldForce : Bool) : SingleResult :=
  let r := perform_branch_deletion st branch shouldForce
  if r.success then
    { state := r.state, success := true, error := none, trace := r.trace }
  else
    { state := r.state, success := false, error := some r.message,
      trace := r.trace }

/-- `BranchCleanup._delete_single_branch`: validate existence, validate the
branch is not current, validate merged state when not forcing and the
passed status map does not already say `MERGED`/`GONE`, then delete the
local ref, forcing when `force` is set or the status map says `GONE`.
Raised `GitError`s are caught and returned as the error component. -/
def delete_single_branch (st : GitState) (branch : BranchName) (force : Bool)
    (status : List (BranchName × BranchStatus)) : SingleResult :=
  if !st.heads.any (fun h => h.name == branch) then
    { state := st, success := false,
      error := some ("Branch " ++ branch ++ " does not exist"), trace := [] }
  else if st.currentBranch == branch then
    { state := st, success := false,
      error := some ("Cannot delete current branch " ++ branch), trace := [] }
  else
    match merged_precheck st branch force status with
    | .error e =>
      { state := st, success := false, error := some e, trace := [] }
    | .ok _ =>
      finish_branch_deletion st branch
        (force || status.lookup branch == some BranchStatus.GONE)

/-- Result of `_delete_branches_batch`. -/
structure BatchResult where
  state : GitState
  deleted : List BranchName
  failed : List (BranchName × String)
  trace : List GitAction

/-- `BranchCleanup._delete_branches_batch`: delete each branch in turn with
the same (stale) status map, separating successes from failures; a failure
never stops the loop. -/
def delete_branches_batch (st : GitState) (to_delete : List BranchName)
    (force : Bool) (status : List (BranchName × BranchStatus)) : BatchResult :=
  match to_delete with
  | [] => { state := st, deleted := [], failed := [], trace := [] }
  | b :: rest =>
    let r := delete_single_branch st b force status
    let rb := delete_branches_batch r.state rest force status
    if r.success then
      { state := rb.state, deleted := b :: rb.deleted, failed := rb.failed,
        trace := r.trace ++ rb.trace }
    else
      { state := rb.state, deleted := rb.deleted,
        failed := (b, r.error.getD "") :: rb.failed, trace := r.trace ++ rb.trace }

/-- Result of `_delete_branches_in_clean`: final state, the normal return
or raised `GitError`, and the performed mutations. On the `.ok` outcome the
deleted/failed lists are returned for observation (the Python function
returns `None`). -/
structure CleanResult where
  state : GitState
  result : Except GitErrMsg (List BranchName × List (BranchName × String))
  trace : List GitAction

/-- `BranchCleanup._delete_branches_in_clean`: nothing to delete, dry-run,
or a declined confirmation each end the run without touching the
repository; otherwise the status map is recomputed (its `GitError`
propagates), the batch is deleted, and a `GitError` is raised at the end
when any branch failed.  `confirm` is the answer the user gives to
`_prompt_for_deletion` when prompted. -/
def delete_branches_in_clean (st : GitState) (to_delete : List BranchName)
    (force no_interactive confirm dry_run : Bool) : CleanResult :=
  if to_delete.isEmpty then
    { state := st, result := .ok ([], []), trace := [] }
  else if dry_run then
    { state := st, result := .ok ([], []), trace := [] }
  else if !no_interactive && !confirm then
    { state := st, result := .ok ([], []), trace := [] }
  else
    match get_branch_status st "main" with
    | .error e => { state := st, result := .error e, trace := [] }
    | .ok status =>
      let rb := delete_branches_batch st to_delete force status
      if rb.failed.isEmpty then
        { state := rb.state, result := .ok (rb.deleted, rb.failed),
          trace := rb.trace }
      else
        { state := rb.state,
          result := .error ("Failed to delete " ++ toString rb.failed.length
            ++ " branches"),
          trace := rb.trace }

/-- `BranchCleanup._find_safe_branch`: present in the source and exercised
only by its unit tests; the clean deletion path never calls it. -/
def find_safe_branch (st : GitState) (current : BranchName)
    (to_delete : List BranchName) : Option BranchName :=
  if !to_delete.contains current then none
  else (st.heads.find? (fun b =>
    !to_delete.contains b.name && !(b.name == current))).map Branch.name

/-- `WorktreeManager.remove_worktree` (from `worktree.py`): runs
`git worktree remove [--force] path`.  Present in the source and exercised
only by its unit tests; no deletion path invokes it. -/
def remove_worktree (removeError : String → Bool → Option GitErrMsg)
    (path : String) (force : Bool) : Except GitErrMsg (List GitAction) :=
  match removeError path force with
  | none => .ok [GitAction.removeWorktree path force]
  | some e => .error ("Failed to remove worktree: " ++ e)

/-! ### Merged check of `common.is_branch_upstream_of_another`

Used by the non-forced verification of `BranchOperations.delete_branch`
(via `BranchOperations._is_branch_merged`). -/

/-- `common.is_branch_upstream_of_another`: after validating both names and
their existence, returns true when the two tips coincide, when the first
merge base equals the upstream tip, or — failing both — when the diff
between the two tips is empty; an empty merge-base list yields false, and a
`GitCommandError` from `merge_base` or `diff` is re-raised as `GitError`. -/
def is_branch_upstream_of_another (st : GitState)
    (upstream_branch downstream_branch : BranchName) : Except GitErrMsg Bool :=
  if !branchNameOk upstream_branch then
    .error ("Branch name " ++ upstream_branch ++ " is invalid")
  else if !branchNameOk downstream_branch then
    .error ("Branch name " ++ downstream_branch ++ " is invalid")
  else
    match st.heads.find? (fun h => h.name == upstream_branch) with
    | none => .error ("Branch " ++ upstream_branch ++ " does not exist")
    | some ub =>
      match st.heads.find? (fun h => h.name == downstream_branch) with
      | none => .error ("Branch " ++ downstream_branch ++ " does not exist")
      | some db =>
        if ub.commit == db.commit then .ok true
        else
          match st.mergeBase ub.commit db.commit with
          | .error e => .error ("Failed to check if " ++ upstream_branch
              ++ " is merged into " ++ downstream_branch ++ ": " ++ e)
          | .ok [] => .ok false
          | .ok (m :: _) =>
            if m == ub.commit then .ok true
            else
              match st.diffLen ub.commit db.commit with
              | .error e => .error ("Failed to check if " ++ upstream_branch
                  ++ " is merged into " ++ downstream_branch ++ ": " ++ e)
              | .ok k => .ok (k == 0)

/-! ### CLI clean run (`src/arborist/cli.py`)

The repository-level environment of one `main` invocation, with the
configuration and command-line options already resolved (the claim under
study concerns the exit code as a function of deletion outcomes, not option
parsing).  `deleteOk b f` tells whether `git.delete_branch(b, force=f)`
returns normally (`false` = it raises `GitError`); `goneBranches` and
`mergedBranches` are the outcomes of `git.get_gone_branches()` and
`git.get_merged_branches()`. -/
structure CliEnv where
  isGitRepo : Bool
  goneBranches : Except GitErrMsg (List BranchName)
  mergedBranches : Except GitErrMsg (List BranchName)
  protectedBranches : List BranchName
  deleteOk : BranchName → Bool → Bool
  confirmSingle : BranchName → Bool
  confirmBulk : Bool
  dryRun : Bool
  interactive : Bool
  skipGc : Bool
  gcOk : Bool

/-- How one `main` invocation can fail: a `GitError` caught by the
top-level handler, or a `typer.Exit(code=1)` raised by a handler; both end
the process with exit code 1. -/
inductive CliFailure
  | gitErrorRaised (msg : String)
  | exitOne
deriving DecidableEq, Repr

/-- `cli._delete_single_branch`: ask for confirmation (declining counts as
success), honour dry-run, then call `git.delete_branch`, reporting `False`
when it raises `GitError`. -/
def _delete_single_branch_cli (env : CliEnv) (branch : BranchName)
    (dry_run force : Bool) : Bool :=
  if !env.confirmSingle branch then true
  else if dry_run then true
  else env.deleteOk branch force

/-- Loop body of `cli._delete_branches_non_interactive`: stop and report
failure at the first branch whose deletion raises. -/
def _delete_branches_non_interactive_loop (env : CliEnv) (force : Bool) :
    List BranchName → Bool
  | [] => true
  | b :: rest =>
    if env.deleteOk b force then _delete_branches_non_interactive_loop env force rest
    else false

/-- `cli._delete_branches_non_interactive`. -/
def _delete_branches_non_interactive (env : CliEnv) (branches : List BranchName)
    (dry_run force : Bool) : Bool :=
  if dry_run then true
  else _delete_branches_non_interactive_loop env force branches

/-- Loop shared by both arms of `cli._delete_branches_interactive`: stop at
the first per-branch failure. -/
def _delete_branches_interactive_loop (env : CliEnv) (dry_run force : Bool) :
    List BranchName → Bool
  | [] => true
  | b :: rest =>
    if _delete_single_branch_cli env b dry_run force then
      _delete_branches_interactive_loop env dry_run force rest
    else false

/-- `cli._delete_branches_interactive`: the bulk confirmation changes no
behaviour — both arms run the same per-branch loop. -/
def _delete_branches_interactive (env : CliEnv) (branches : List BranchName)
    (dry_run force : Bool) : Bool :=
  if branches.length > 1 && env.confirmBulk then
    _delete_branches_interactive_loop env dry_run force branches
  else _delete_branches_interactive_loop env dry_run force branches

/-- `cli.delete_branches`. -/
def delete_branches (env : CliEnv) (branches : List BranchName)
    (dry_run interactive force : Bool) : Bool :=
  if branches.isEmpty then true
  else if !interactive then
    _delete_branches_non_interactive env branches dry_run force
  else _delete_branches_interactive env branches dry_run force

/-- `cli._handle_gone_branches`: list gone branches (a raised `GitError`
propagates), drop protected ones, and raise `typer.Exit(code=1)` when
`delete_branches` reports any failure. -/
def _handle_gone_branches (env : CliEnv) (dry_run interactive : Bool) :
    Except CliFailure Unit :=
  match env.goneBranches with
  | .error e => .error (.gitErrorRaised e)
  | .ok gone =>
    if gone.isEmpty then .ok ()
    else
      let remaining := gone.filter (fun b => !env.protectedBranches.contains b)
      if remaining.isEmpty then .ok ()
      else if delete_branches env remaining dry_run interactive false then .ok ()
      else .error .exitOne

/-- `cli._handle_merged_branches`: as the gone handler, but deleting with
`force=True`. -/
def _handle_merged_branches (env : CliEnv) (dry_run interactive : Bool) :
    Except CliFailure Unit :=
  match env.mergedBranches with
  | .error e => .error (.gitErrorRaised e)
  | .ok merged =>
    if merged.isEmpty then .ok ()
    else
      let remaining := merged.filter (fun b => !env.protectedBranches.contains b)
      if remaining.isEmpty then .ok ()
      else if delete_branches env remaining dry_run interactive true then .ok ()
      else .error .exitOne

/-- `cli.main`: exit 1 when the path is not a repository, when a handler
raises (`GitError` or `typer.Exit(code=1)`), or when `git.optimize_repo`
raises; exit 0 otherwise. -/
def cli_main (env : CliEnv) : Nat :=
  if !env.isGitRepo then 1
  else
    match _handle_gone_branches env env.dryRun env.interactive with
    | .error _ => 1
    | .ok _ =>
      match _handle_merged_branches env env.dryRun env.interactive with
      | .error _ => 1
      | .ok _ => if !env.skipGc && !env.gcOk then 1 else 0

/-! ### Concrete repository states used by counterexamples and witnesses -/

/-- One-branch repository: `main` checked out, no remotes, every backend
query answering benignly; `merge_base x y = [x]` and `is_ancestor = true`
make the merged check succeed for every pair. -/
def stC1 : GitState where
  heads := [⟨"main", 0⟩]
  currentBranch := "main"
  remotes := []
  trackingResult := fun _ => .ok none
  fetchOk := fun _ _ => true
  mergeBase := fun a _ => .ok [a]
  isAncestor := fun _ _ => .ok true
  diffLen := fun _ _ => .ok 0
  deleteHeadError := fun _ _ => none
  worktrees := []

/-- Repository for the worktree counterexample: `feature-wt` is checked out
in a secondary worktree at `wt/feature-wt`, is merged, and `delete_head`
succeeds on it. -/
def stC3 : GitState where
  heads := [⟨"main", 0⟩, ⟨"feature-wt", 1⟩]
  currentBranch := "main"
  remotes := []
  trackingResult := fun _ => .ok none
  fetchOk := fun _ _ => true
  mergeBase := fun a _ => .ok [a]
  isAncestor := fun _ _ => .ok true
  diffLen := fun _ _ => .ok 0
  deleteHeadError := fun _ _ => none
  worktrees := [("wt/feature-wt", some "feature-wt")]

/-- Status map passed to the single-branch deletion in the worktree
counterexample. -/
def statusC3 : List (BranchName × BranchStatus) :=
  [("main", BranchStatus.MERGED), ("feature-wt", BranchStatus.MERGED)]

/-- Repository for the gone-priority witness: `feat` tracks a remote head
that no remote can serve, while the merge oracles would report it merged. -/
def stC6 : GitState where
  heads := [⟨"main", 0⟩, ⟨"feat", 1⟩]
  currentBranch := "main"
  remotes := ["origin"]
  trackingResult := fun b => if b == "feat" then .ok (some "feat") else .ok none
  fetchOk := fun _ _ => false
  mergeBase := fun a _ => .ok [a]
  isAncestor := fun _ _ => .ok true
  diffLen := fun _ _ => .ok 0
  deleteHeadError := fun _ _ => none
  worktrees := []

/-- Repository for the clean-run counterexample: only `main` (current) and
`b1` exist, so a to-delete set containing both leaves no safe branch. -/
def stC7 : GitState where
  heads := [⟨"main", 0⟩, ⟨"b1", 1⟩]
  currentBranch := "main"
  remotes := []
  trackingResult := fun _ => .ok none
  fetchOk := fun _ _ => true
  mergeBase := fun a _ => .ok [a]
  isAncestor := fun _ _ => .ok true
  diffLen := fun _ _ => .ok 0
  deleteHeadError := fun _ _ => none
  worktrees := []

/-- The failing input of the classification error claim, as in the
repository's own test `test_get_branch_status_with_invalid_remote`:
`feature` tracks `origin/feature`, and fetching from the (unreachable)
remote raises `GitCommandError` for every refspec, i.e. `fetchOk = false`
everywhere. -/
def stC9 : GitState where
  heads := [⟨"main", 0⟩, ⟨"feature", 1⟩]
  currentBranch := "main"
  remotes := ["origin"]
  trackingResult := fun b => if b == "feature" then .ok (some "feature") else .ok none
  fetchOk := fun _ _ => false
  mergeBase := fun a _ => .ok [a]
  isAncestor := fun _ _ => .ok false
  diffLen := fun _ _ => .ok 0
  deleteHeadError := fun _ _ => none
  worktrees := []

/-- Squash-merge scenario: `feat` (tip 1) and `main` (tip 2) share merge
base 0, so the `feat` tip is not an ancestor of `main`, but the tree diff
between the two tips is empty. -/
def stC10 : GitState where
  heads := [⟨"main", 2⟩, ⟨"feat", 1⟩]
  currentBranch := "main"
  remotes := []
  trackingResult := fun _ => .ok none
  fetchOk := fun _ _ => true
  mergeBase := fun _ _ => .ok [0]
  isAncestor := fun _ _ => .ok false
  diffLen := fun _ _ => .ok 0
  deleteHeadError := fun _ _ => none
  worktrees := []

/-- Healthy clean-run environment in which the single gone branch fails to
delete: the repository check passes, listing branches succeeds, and
`git.delete_branch` raises `GitError` on `feature-x`. -/
def envC2 : CliEnv where
  isGitRepo := true
  goneBranches := .ok ["feature-x"]
  mergedBranches := .ok []
  protectedBranches := []
  deleteOk := fun _ _ => false
  confirmSingle := fun _ => true
  confirmBulk := true
  dryRun := false
  interactive := false
  skipGc := true
  gcOk := true

/-- Planner witness inputs: `main` is current, `release-1` is protected by
the stem pattern `release`, `feat` is merged with no tracking ref. -/
def statusC4 : List (BranchName × BranchStatus) :=
  [("main", BranchStatus.MERGED), ("feat", BranchStatus.MERGED),
   ("release-1", BranchStatus.MERGED)]

/-- Planner witness inputs for the unforced rules: `gone1` has a live
tracking reference and status `GONE`. -/
def statusC5 : List (BranchName × BranchStatus) :=
  [("main", BranchStatus.MERGED), ("gone1", BranchStatus.GONE)]

/-- Tracking oracle for the unforced planner witness. -/
def trackingC5 : BranchName → Option BranchName :=
  fun b => if b == "gone1" then some "origin-gone1" else none

/-! ### Helper lemmas -/

theorem mem_get_branches_to_delete {current : BranchName}
    {tracking : BranchName → Option BranchName} {force : Bool}
    {protect : List String} {status : List (BranchName × BranchStatus)}
    {b : BranchName} :
    b ∈ get_branches_to_delete current tracking force protect status ↔
      ∃ s, (b, s) ∈ status ∧
        plan_keeps current tracking force protect b s = true := by
  induction status with
  | nil => simp [get_branches_to_delete]
  | cons hd tl ih =>
    obtain ⟨br, stt⟩ := hd
    by_cases hk : plan_keeps current tracking force protect br stt = true
    · rw [show get_branches_to_delete current tracking force protect
          ((br, stt) :: tl)
          = br :: get_branches_to_delete current tracking force protect tl from
        by simp [get_branches_to_delete, hk]]
      simp only [List.mem_cons]
      constructor
      · rintro (rfl | hmem)
        · exact ⟨stt, Or.inl rfl, hk⟩
        · obtain ⟨s, hs, hks⟩ := ih.mp hmem
          exact ⟨s, Or.inr hs, hks⟩
      · rintro ⟨s, hs, hks⟩
        rcases hs with heq | htl
        · injection heq with h1 h2
          exact Or.inl h1
        · exact Or.inr (ih.mpr ⟨s, htl, hks⟩)
    · rw [show get_branches_to_delete current tracking force protect
          ((br, stt) :: tl)
          = get_branches_to_delete current tracking force protect tl from
        by simp [get_branches_to_delete, hk]]
      rw [ih]
      constructor
      · rintro ⟨s, hs, hks⟩
        exact ⟨s, List.mem_cons_of_mem _ hs, hks⟩
      · rintro ⟨s, hs, hks⟩
        rcases List.mem_cons.mp hs with heq | htl
        · injection heq with h1 h2
          subst h1; subst h2
          exact absurd hks hk
        · exact ⟨s, htl, hks⟩

theorem plan_keeps_spec {current : BranchName}
    {tracking : BranchName → Option BranchName} {force : Bool}
    {protect : List String} {b : BranchName} {s : BranchStatus}
    (h : plan_keeps current tracking force protect b s = true) :
    b ≠ current ∧ is_protected_by_pattern b protect = false ∧
      s ≠ BranchStatus.UNKNOWN ∧
      (force = false → s ≠ BranchStatus.UNMERGED ∧
        ((tracking b).isSome = true → s = BranchStatus.GONE)) := by
  unfold plan_keeps at h
  have hprot : ∀ h2 : ¬((!protect.isEmpty
      && is_protected_by_pattern b protect) = true),
      is_protected_by_pattern b protect = false := by
    intro h2
    cases hpe : protect.isEmpty with
    | true =>
      have : protect = [] := List.isEmpty_iff.mp hpe
      subst this
      simp [is_protected_by_pattern]
    | false =>
      cases hpp : is_protected_by_pattern b protect with
      | false => rfl
      | true => exact absurd (by simp [hpe, hpp]) h2
  split_ifs at h with h1 h2 h3 h4 h5
  · -- kept because the status is MERGED or GONE
    have hne : b ≠ current := fun heq => h1 (by simp [heq])
    have hmg : s = BranchStatus.MERGED ∨ s = BranchStatus.GONE := by
      rcases Bool.or_eq_true _ _ |>.mp h4 with hm | hg
      · exact Or.inl (by simpa using hm)
      · exact Or.inr (by simpa using hg)
    refine ⟨hne, hprot h2, ?_, ?_⟩
    · rcases hmg with rfl | rfl <;> decide
    · intro hf
      refine ⟨by rcases hmg with rfl | rfl <;> decide, ?_⟩
      intro hsome
      cases hg : (s == BranchStatus.GONE) with
      | true => exact by simpa using hg
      | false => exact absurd (by simp [hf, hsome, hg]) h3
  · -- kept because UNMERGED and forcing
    have h5' : s = BranchStatus.UNMERGED ∧ force = true := by
      rcases Bool.and_eq_true _ _ |>.mp h5 with ⟨hu, hf⟩
      exact ⟨by simpa using hu, hf⟩
    have hne : b ≠ current := fun heq => h1 (by simp [heq])
    refine ⟨hne, hprot h2, ?_, ?_⟩
    · rcases h5' with ⟨rfl, _⟩; decide
    · intro hf
      exact absurd h5'.2 (by simp [hf])

theorem lookup_unique_of_keys_nodup {l : List (BranchName × BranchStatus)}
    (h : (l.map Prod.fst).Nodup) {b : BranchName} {s s2 : BranchStatus}
    (h1 : (b, s) ∈ l) (h2 : (b, s2) ∈ l) : s = s2 := by
  induction l with
  | nil => cases h1
  | cons hd tl ih =>
    rw [List.map_cons, List.nodup_cons] at h
    rcases List.mem_cons.mp h1 with e1 | m1
    · rcases List.mem_cons.mp h2 with e2 | m2
      · rw [← e1] at e2
        injection e2 with _ hs
        exact hs.symm
      · exfalso
        apply h.1
        rw [← e1]
        exact List.mem_map.mpr ⟨(b, s2), m2, rfl⟩
    · rcases List.mem_cons.mp h2 with e2 | m2
      · exfalso
        apply h.1
        rw [← e2]
        exact List.mem_map.mpr ⟨(b, s), m1, rfl⟩
      · exact ih h.2 m1 m2

theorem perform_trace_shape (st : GitState) (branch : BranchName)
    (force : Bool) :
    (perform_branch_deletion st branch force).trace = [] ∨
      (perform_branch_deletion st branch force).trace
        = [GitAction.deleteHead branch force] := by
  unfold perform_branch_deletion
  cases hd : st.deleteHeadError branch force with
  | none => exact Or.inr rfl
  | some err =>
    left
    dsimp only
    split_ifs <;> rfl

theorem perform_state_current (st : GitState) (branch : BranchName)
    (force : Bool) :
    (perform_branch_deletion st branch force).state.currentBranch
      = st.currentBranch := by
  unfold perform_branch_deletion
  cases hd : st.deleteHeadError branch force with
  | none => rfl
  | some err =>
    dsimp only
    split_ifs <;> rfl

theorem finish_trace_cases (st : GitState) (branch : BranchName) (sf : Bool) :
    (finish_branch_deletion st branch sf).trace = [] ∨
      (finish_branch_deletion st branch sf).trace
        = [GitAction.deleteHead branch sf] := by
  unfold finish_branch_deletion
  dsimp only
  rcases perform_trace_shape st branch sf with hp | hp
  · exact Or.inl (by split_ifs <;> exact hp)
  · exact Or.inr (by split_ifs <;> exact hp)

theorem finish_state_current (st : GitState) (branch : BranchName) (sf : Bool) :
    (finish_branch_deletion st branch sf).state.currentBranch
      = st.currentBranch := by
  unfold finish_branch_deletion
  dsimp only
  split_ifs <;> exact perform_state_current st branch sf

theorem single_trace_cases (st : GitState) (branch : BranchName) (force : Bool)
    (status : List (BranchName × BranchStatus)) :
    (delete_single_branch st branch force status).trace = [] ∨
      (delete_single_branch st branch force status).trace
        = [GitAction.deleteHead branch
            (force || (List.lookup branch status == some BranchStatus.GONE))] := by
  unfold delete_single_branch
  split_ifs with h1 h2
  · exact Or.inl rfl
  · exact Or.inl rfl
  · split
    · exact Or.inl rfl
    · exact finish_trace_cases st branch _

theorem single_trace_shape (st : GitState) (branch : BranchName) (force : Bool)
    (status : List (BranchName × BranchStatus)) :
    ∀ a ∈ (delete_single_branch st branch force status).trace,
      ∃ f2, a = GitAction.deleteHead branch f2 := by
  intro a ha
  rcases single_trace_cases st branch force status with hp | hp <;> rw [hp] at ha
  · simp at ha
  · exact ⟨_, List.mem_singleton.mp ha⟩

theorem single_state_current (st : GitState) (branch : BranchName)
    (force : Bool) (status : List (BranchName × BranchStatus)) :
    (delete_single_branch st branch force status).state.currentBranch
      = st.currentBranch := by
  unfold delete_single_branch
  split_ifs with h1 h2
  · rfl
  · rfl
  · split
    · rfl
    · exact finish_state_current st branch _

theorem single_current_trace_nil (st : GitState) (branch : BranchName)
    (force : Bool) (status : List (BranchName × BranchStatus))
    (h : st.currentBranch = branch) :
    (delete_single_branch st branch force status).trace = [] := by
  unfold delete_single_branch
  by_cases hm : st.heads.any (fun h2 => h2.name == branch) = true
  · rw [if_neg (by simp [hm]), if_pos (by simp [h])]
  · rw [if_pos (by simp [hm])]

theorem batch_state_current (st : GitState) (to_delete : List BranchName)
    (force : Bool) (status : List (BranchName × BranchStatus)) :
    (delete_branches_batch st to_delete force status).state.currentBranch
      = st.currentBranch := by
  induction to_delete generalizing st with
  | nil => rfl
  | cons b rest ih =>
    unfold delete_branches_batch
    dsimp only
    split_ifs <;>
      exact (by rw [ih, single_state_current] :
        (delete_branches_batch (delete_single_branch st b force status).state
          rest force status).state.currentBranch = st.currentBranch)

theorem batch_trace_shape (st : GitState) (to_delete : List BranchName)
    (force : Bool) (status : List (BranchName × BranchStatus)) :
    ∀ a ∈ (delete_branches_batch st to_delete force status).trace,
      ∃ b f2, a = GitAction.deleteHead b f2 ∧ b ∈ to_delete ∧
        b ≠ st.currentBranch := by
  induction to_delete generalizing st with
  | nil => intro a ha; simp [delete_branches_batch] at ha
  | cons b rest ih =>
    intro a ha
    have ha2 : a ∈ (delete_single_branch st b force status).trace ∨
        a ∈ (delete_branches_batch
          (delete_single_branch st b force status).state rest force
          status).trace := by
      unfold delete_branches_batch at ha
      dsimp only at ha
      split_ifs at ha <;> exact List.mem_append.mp ha
    rcases ha2 with hh | ht
    · obtain ⟨f2, rfl⟩ := single_trace_shape st b force status a hh
      refine ⟨b, f2, rfl, List.mem_cons_self b rest, ?_⟩
      intro he
      rw [single_current_trace_nil st b force status he.symm] at hh
      simp at hh
    · obtain ⟨b2, f2, rfl, hmem, hne⟩ := ih _ a ht
      refine ⟨b2, f2, rfl, List.mem_cons_of_mem _ hmem, ?_⟩
      rwa [single_state_current] at hne

/-! ### Claim theorems -/

/-- C1 counterexample: in a repository whose only branch is the target
`main` itself, the classification map returned by `get_branch_status` does
contain an entry for the target branch — `main` is classified against
itself and comes out `MERGED` (its tip trivially equals the target tip) —
refuting the claim that the map contains no entry for the target. -/
theorem classify_all_includes_target_cex :
    get_branch_status stC1 "main" = .ok [("main", BranchStatus.MERGED)] := rfl

/-- C1 (amended): whenever `get_branch_status` succeeds, the returned
classification map has exactly one entry per local branch, in order — so it
contains an entry for every branch including the target branch itself,
which is classified against itself rather than excluded. -/
theorem classify_all_covers_all_heads (st : GitState) (target : BranchName)
    (m : List (BranchName × BranchStatus))
    (h : get_branch_status st target = .ok m) :
    m.map Prod.fst = st.heads.map Branch.name ∧ target ∈ m.map Prod.fst := by
  unfold get_branch_status at h
  by_cases h1 : branchNameOk target = true
  · rw [if_neg (by simp [h1])] at h
    by_cases h2 : st.heads.any (fun b => b.name == target) = true
    · rw [if_neg (by simp [h2])] at h
      injection h with h
      subst h
      constructor
      · simp [List.map_map]
      · rw [List.any_eq_true] at h2
        obtain ⟨b, hb, hbt⟩ := h2
        simp only [List.map_map]
        exact List.mem_map.mpr ⟨b, hb, by simpa using hbt⟩
    · rw [if_pos (by simp [h2])] at h
      exact Except.noConfusion h
  · rw [if_pos (by simp [h1])] at h
    exact Except.noConfusion h

/-- Witness for the amended C1 theorem at the concrete repository `stC1`. -/
theorem classify_all_covers_all_heads_witness :
    ([("main", BranchStatus.MERGED)] : List (BranchName × BranchStatus)).map
        Prod.fst = stC1.heads.map Branch.name ∧
      "main" ∈ ([("main", BranchStatus.MERGED)] :
        List (BranchName × BranchStatus)).map Prod.fst :=
  classify_all_covers_all_heads stC1 "main" [("main", BranchStatus.MERGED)]
    (by rfl)

/-- C2 counterexample: in the healthy environment `envC2` (the path is a
repository, listing gone/merged branches succeeds) where the single gone
branch `feature-x` fails to delete, `cli.main` exits with code 1, not 0 —
`delete_branches` returns false and the handler raises `typer.Exit(1)`. -/
theorem clean_exit_code_cex :
    envC2.isGitRepo = true ∧ envC2.goneBranches = .ok ["feature-x"] ∧
      envC2.deleteOk "feature-x" false = false ∧ cli_main envC2 = 1 :=
  ⟨rfl, rfl, rfl, rfl⟩

/-- C2 (amended): the clean run exits 0 exactly when the path is a
repository, both handlers complete without any deletion failure (any
individual branch deletion failure makes `delete_branches` return false and
the handler raise `typer.Exit(code=1)`), and the optimize step does not
raise; every failure — including a single branch deletion failure — exits
1. -/
theorem clean_exit_zero_iff_all_succeed (env : CliEnv) :
    cli_main env = 0 ↔
      env.isGitRepo = true ∧
      _handle_gone_branches env env.dryRun env.interactive = .ok () ∧
      _handle_merged_branches env env.dryRun env.interactive = .ok () ∧
      (env.skipGc || env.gcOk) = true := by
  unfold cli_main
  cases hr : env.isGitRepo with
  | false => simp [hr]
  | true =>
    rw [if_neg (by simp)]
    cases hg : _handle_gone_branches env env.dryRun env.interactive with
    | error e => simp [hg]
    | ok u =>
      cases u
      cases hm : _handle_merged_branches env env.dryRun env.interactive with
      | error e => simp [hm]
      | ok u =>
        cases u
        cases hsg : env.skipGc <;> cases hgo : env.gcOk <;> simp

/-- C3 counterexample: in `stC3` the branch `feature-wt` has a bound
worktree at `wt/feature-wt`, yet `_delete_single_branch` deletes its local
ref directly and successfully: the performed backend actions are exactly
one `delete_head`, with no worktree removal before it — refuting the claim
that the bound worktree is removed (forcibly) before the local ref is
deleted. -/
theorem delete_branch_ignores_worktree_cex :
    stC3.worktrees = [("wt/feature-wt", some "feature-wt")] ∧
    (delete_single_branch stC3 "feature-wt" false statusC3).success = true ∧
    (delete_single_branch stC3 "feature-wt" false statusC3).trace
      = [GitAction.deleteHead "feature-wt" false] :=
  ⟨rfl, rfl, rfl⟩

/-- C3 (amended): the single-branch deletion operation never interacts with
worktrees: every backend mutation it performs is a `delete_head` of the
named branch — in particular it never removes a worktree, whether or not the
branch has one bound (the `WorktreeManager.remove_worktree` helper exists
in the source but is not invoked by any deletion path). -/
theorem delete_single_branch_no_worktree_removal (st : GitState)
    (branch : BranchName) (force : Bool)
    (status : List (BranchName × BranchStatus)) :
    ∀ a ∈ (delete_single_branch st branch force status).trace,
      ∃ f2, a = GitAction.deleteHead branch f2 :=
  single_trace_shape st branch force status

/-- Witness for the amended C3 theorem at the concrete repository `stC3`. -/
theorem delete_single_branch_no_worktree_removal_witness :
    ∃ f2, GitAction.deleteHead "feature-wt" false
      = GitAction.deleteHead "feature-wt" f2 :=
  delete_single_branch_no_worktree_removal stC3 "feature-wt" false statusC3
    (GitAction.deleteHead "feature-wt" false) (by decide)

/-- C4: the deletion plan computed by `_get_branches_to_delete` never
contains the current branch, never contains a branch matched by the
protection patterns, and — whatever the force flag — never contains a
branch whose status is `UNKNOWN` (status maps bind each branch once, hence
the key-uniqueness hypothesis). -/
theorem plan_excludes_current_protected_unknown (current : BranchName)
    (tracking : BranchName → Option BranchName) (force : Bool)
    (protect : List String) (status : List (BranchName × BranchStatus))
    (b : BranchName) (hnd : (status.map Prod.fst).Nodup)
    (hb : b ∈ get_branches_to_delete current tracking force protect status) :
    b ≠ current ∧ is_protected_by_pattern b protect = false ∧
      ∀ s, (b, s) ∈ status → s ≠ BranchStatus.UNKNOWN := by
  obtain ⟨s0, hs0, hk⟩ := mem_get_branches_to_delete.mp hb
  obtain ⟨hc, hp, hu, _⟩ := plan_keeps_spec hk
  refine ⟨hc, hp, fun s hs => ?_⟩
  rw [lookup_unique_of_keys_nodup hnd hs hs0]
  exact hu

/-- Witness for the C4 theorem on the concrete planner input `statusC4`. -/
theorem plan_excludes_current_protected_unknown_witness :
    ("feat" : BranchName) ≠ "main" ∧
      is_protected_by_pattern "feat" ["release"] = false ∧
      ∀ s, (("feat" : BranchName), s) ∈ statusC4 → s ≠ BranchStatus.UNKNOWN :=
  plan_excludes_current_protected_unknown "main" (fun _ => none) false
    ["release"] statusC4 "feat" (by decide) (by decide)

/-- C5: with `force = false`, the deletion plan never contains an
`UNMERGED` branch, and a planned branch that has a remote tracking
reference necessarily has status `GONE`. -/
theorem plan_unforced_excludes_unmerged_and_tracked (current : BranchName)
    (tracking : BranchName → Option BranchName) (protect : List String)
    (status : List (BranchName × BranchStatus)) (b : BranchName)
    (s : BranchStatus) (hnd : (status.map Prod.fst).Nodup)
    (hb : b ∈ get_branches_to_delete current tracking false protect status)
    (hs : (b, s) ∈ status) :
    s ≠ BranchStatus.UNMERGED ∧
      ((tracking b).isSome = true → s = BranchStatus.GONE) := by
  obtain ⟨s0, hs0, hk⟩ := mem_get_branches_to_delete.mp hb
  have hspec := (plan_keeps_spec hk).2.2.2 rfl
  rw [lookup_unique_of_keys_nodup hnd hs hs0]
  exact hspec

/-- Witness for the C5 theorem on the concrete planner input `statusC5`:
the planned branch `gone1` has a live tracking reference and status
`GONE`. -/
theorem plan_unforced_excludes_unmerged_and_tracked_witness :
    BranchStatus.GONE ≠ BranchStatus.UNMERGED ∧
      ((trackingC5 "gone1").isSome = true →
        BranchStatus.GONE = BranchStatus.GONE) :=
  plan_unforced_excludes_unmerged_and_tracked "main" trackingC5 [] statusC5
    "gone1" BranchStatus.GONE (by decide) (by decide) (by decide)

/-- C6: a branch with a tracking reference whose remote head no remote can
serve is classified `GONE` — never `MERGED` or `UNMERGED` — for every
merge-base/ancestor oracle, i.e. even when the branch tip is an ancestor of
the target tip: the gone check is decided before the merged check. -/
theorem classify_gone_decided_before_merged (st : GitState) (b : Branch)
    (target tr : BranchName)
    (ht : get_tracking_branch st b.name = some tr)
    (hf : ∀ r ∈ st.remotes, st.fetchOk r tr = false) :
    _get_branch_status st b target = BranchStatus.GONE := by
  have hg : is_branch_gone st b.name = true := by
    unfold is_branch_gone
    rw [ht]
    simp only [try_fetch_remote_branch, Bool.not_eq_true']
    rw [List.any_eq_false]
    intro r hr
    simp [hf r hr]
  unfold _get_branch_status
  rw [if_pos hg]

/-- Witness for the C6 theorem on `stC6`, where the merged check would in
fact report the branch merged (`check_branch_merged` is true), yet the gone
check wins. -/
theorem classify_gone_decided_before_merged_witness :
    check_branch_merged stC6 ⟨"feat", 1⟩ ⟨"main", 0⟩ = true ∧
      _get_branch_status stC6 ⟨"feat", 1⟩ "main" = BranchStatus.GONE :=
  ⟨rfl, classify_gone_decided_before_merged stC6 ⟨"feat", 1⟩ "main" "feat"
    (by rfl) (by intro r hr; rfl)⟩

/-- C7 counterexample: in `stC7` the to-delete set `["main", "b1"]`
contains the current branch `main` and covers every local branch, so no
safe branch exists; the claim demands an abort (`NoSafeBranch`) before any
deletion, but `_delete_branches_in_clean` deletes `b1` anyway (the trace
shows its `delete_head`), performs no checkout, and only afterwards raises
the generic batch-failure error. -/
theorem clean_no_safe_branch_cex :
    stC7.currentBranch ∈ (["main", "b1"] : List BranchName) ∧
    (∀ h ∈ stC7.heads, h.name ∈ (["main", "b1"] : List BranchName)) ∧
    (delete_branches_in_clean stC7 ["main", "b1"] false true true false).trace
      = [GitAction.deleteHead "b1" false] ∧
    (delete_branches_in_clean stC7 ["main", "b1"] false true true false).result
      = .error "Failed to delete 1 branches" := by
  refine ⟨by decide, by decide, rfl, rfl⟩

/-- C7 (amended): the clean deletion path never reassigns the checkout:
every backend mutation it performs is a `delete_head` of a planned branch
that is not the current branch — there is no checkout action and no
abort-before-deletion; when the set includes the current branch, only that
branch's deletion fails while the rest of the batch proceeds
(`_switch_to_safe_branch` exists in the source but is never invoked). -/
theorem clean_never_moves_checkout (st : GitState)
    (to_delete : List BranchName) (force ni confirm dr : Bool) :
    ∀ a ∈ (delete_branches_in_clean st to_delete force ni confirm dr).trace,
      ∃ b f2, a = GitAction.deleteHead b f2 ∧ b ∈ to_delete ∧
        b ≠ st.currentBranch := by
  intro a ha
  unfold delete_branches_in_clean at ha
  split_ifs at ha with h1 h2 h3
  · simp at ha
  · simp at ha
  · simp at ha
  · rcases hgs : get_branch_status st "main" with e | status <;>
      rw [hgs] at ha <;> dsimp only at ha
    · simp at ha
    · have ha2 : a ∈ (delete_branches_batch st to_delete force status).trace := by
        split_ifs at ha <;> exact ha
      exact batch_trace_shape st to_delete force status a ha2

/-- Witness for the amended C7 theorem at the concrete clean run on
`stC7`. -/
theorem clean_never_moves_checkout_witness :
    ∃ b f2, GitAction.deleteHead "b1" false = GitAction.deleteHead b f2 ∧
      b ∈ (["main", "b1"] : List BranchName) ∧ b ≠ stC7.currentBranch :=
  clean_never_moves_checkout stC7 ["main", "b1"] false true true false
    (GitAction.deleteHead "b1" false) (by decide)

/-- C8 counterexample: the pattern `a?` contains the glob wildcard `?` but
no `*`; standard glob semantics (the per-spec matcher) make it protect the
branch `ab`, but the code's `_is_protected_by_pattern` routes it through
stem semantics and reports it unprotected — refuting the claim that a
pattern containing `?` but no `*` is matched with glob semantics. -/
theorem question_mark_pattern_cex :
    is_protected_by_pattern "ab" ["a?"] = false ∧
    is_protected_by_pattern_per_spec "ab" ["a?"] = true :=
  ⟨rfl, rfl⟩

/-- C8 (amended): matching a branch against a single pattern dispatches on
the character `*` alone: a pattern containing `*` is glob-matched (after
the exact-name check), while every pattern without `*` — including one
containing the glob wildcard `?` — is matched with stem semantics:
equality, or the branch starting with the pattern followed by `-` or
`/`. -/
theorem no_star_pattern_uses_stem_semantics (branch : BranchName)
    (p : String) :
    is_protected_by_pattern branch [p] =
      (if strHasChar p '*' then branch == p || fnmatch branch p
       else branch == p || strStartsWith branch (p ++ "-")
         || strStartsWith branch (p ++ "/")) := by
  unfold is_protected_by_pattern
  cases hbp : branch == p with
  | true =>
    have hb : branch = p := by simpa using hbp
    subst hb
    rw [if_neg (by simp), if_pos (by simp [List.contains])]
    split_ifs <;> simp
  | false =>
    rw [if_neg (by simp)]
    rw [if_neg (by simp [List.contains, List.elem, hbp])]
    cases hst : strHasChar p '*' with
    | true => simp [List.any, hst]
    | false => simp [List.any, hst, hbp]

/-- C9 evaluation at the failing input (code_bug): at `stC9` — the
scenario of the repository's own test
`test_get_branch_status_with_invalid_remote`, where `feature` has a
tracking reference and every `remote.fetch` raises `GitCommandError`
because the remote is unreachable — classification swallows the backend
errors of the gone check and returns `GONE`, not the `UNKNOWN` that the
claim and the test expect. -/
theorem classify_fetch_error_yields_gone :
    _get_branch_status stC9 ⟨"feature", 1⟩ "main" = BranchStatus.GONE ∧
      BranchStatus.GONE ≠ BranchStatus.UNKNOWN :=
  ⟨rfl, by decide⟩

/-- C10: when both names are valid, both branches exist, the merge-base
list is nonempty, and the diff oracle answers, the merged check
`is_branch_upstream_of_another` returns true exactly when the upstream tip
equals the downstream tip, or the first merge base equals the upstream tip,
or the diff between the two tips is empty — so a squash-merged branch
(empty diff, tip not an ancestor) is accepted as merged.  This check is
what `BranchOperations.delete_branch` consults (via `_is_branch_merged`)
for its non-forced verification. -/
theorem upstream_check_accepts_empty_diff (st : GitState)
    (up down : BranchName) (ub db : Branch) (m : CommitId)
    (ms : List CommitId) (k : Nat)
    (hu : branchNameOk up = true) (hd : branchNameOk down = true)
    (hfu : st.heads.find? (fun h => h.name == up) = some ub)
    (hfd : st.heads.find? (fun h => h.name == down) = some db)
    (hmb : st.mergeBase ub.commit db.commit = .ok (m :: ms))
    (hk : st.diffLen ub.commit db.commit = .ok k) :
    is_branch_upstream_of_another st up down =
      .ok (ub.commit == db.commit || m == ub.commit || k == 0) := by
  unfold is_branch_upstream_of_another
  rw [if_neg (by simp [hu]), if_neg (by simp [hd]), hfu, hfd]
  dsimp only
  cases he : ub.commit == db.commit with
  | true => simp
  | false =>
    rw [if_neg (by simp), hmb]
    dsimp only
    cases hm : m == ub.commit with
    | true => simp
    | false =>
      rw [if_neg (by simp), hk]
      simp

/-- Witness for the C10 theorem at the squash-merge scenario `stC10`: the
tips differ (1 and 2), the merge base 0 is not the upstream tip — so the
upstream tip is not an ancestor of the downstream tip — yet the empty diff
makes the check return true. -/
theorem upstream_check_accepts_empty_diff_witness :
    is_branch_upstream_of_another stC10 "feat" "main" =
      .ok (((1 : CommitId) == 2) || ((0 : CommitId) == 1)
        || ((0 : Nat) == 0)) :=
  upstream_check_accepts_empty_diff stC10 "feat" "main" ⟨"feat", 1⟩
    ⟨"main", 2⟩ 0 [] 0 (by decide) (by decide) (by rfl) (by rfl) (by rfl)
    (by rfl)

end Arborist

